import Mathlib

set_option maxHeartbeats 1000000
set_option maxRecDepth 8192

/- Verification of the canvas-to-slides converter (src/script.py) against its
   specification.  The Python source is shallowly embedded below: each Lean
   definition mirrors one Python function of the `PowerPointGenerator` class or
   the `SafeFilename` utility, translated statement by statement.  Strings are
   Lean `String`s (Python indexes strings by code point, as Lean does), the
   bs4 node tree is flattened to a document-ordered list of `Node` projections
   (tag kind, visible text, class list, ancestor-tag facts, and for tables the
   row/cell projection), and the mutable generator state becomes an explicit
   `PState` record threaded through the pass. -/

namespace Canvas

/-- Characters matched by Python's `\s` / `str.strip()` on `str` inputs
    (Unicode whitespace; code points listed explicitly). -/
def pyIsSpace (c : Char) : Bool :=
  [9, 10, 11, 12, 13, 28, 29, 30, 31, 32, 0x85, 0xa0, 0x1680,
   0x2000, 0x2001, 0x2002, 0x2003, 0x2004, 0x2005, 0x2006, 0x2007,
   0x2008, 0x2009, 0x200a, 0x2028, 0x2029, 0x202f, 0x205f, 0x3000].contains c.toNat

/-- Python `str.strip()` on a character list: drop whitespace from both ends. -/
def pyStripL (l : List Char) : List Char :=
  ((l.dropWhile pyIsSpace).reverse.dropWhile pyIsSpace).reverse

/-- Python `str.strip()`. -/
def pyStrip (s : String) : String := String.mk (pyStripL s.toList)

/-- Python slicing `s[:n]` (by code points). -/
def takeChars (n : Nat) (s : String) : String := String.mk (s.toList.take n)

/-- Case-insensitive match of a literal pattern at the head of the input;
    returns the remaining input on success (models a literal in an
    `re.IGNORECASE` pattern). -/
def matchCI : List Char → List Char → Option (List Char)
  | [], cs => some cs
  | _ :: _, [] => none
  | p :: ps, c :: cs => if p.toLower == c.toLower then matchCI ps cs else none

/-- Match the regex `speaker notes\s*:\s*` (IGNORECASE) at the head of the
    input, returning the input after the (greedy) match. -/
def matchSpeakerAt (cs : List Char) : Option (List Char) :=
  match matchCI "speaker notes".toList cs with
  | none => none
  | some r1 =>
    match r1.dropWhile pyIsSpace with
    | ':' :: r3 => some (r3.dropWhile pyIsSpace)
    | _ => none

/-- `re.search` for `speaker notes\s*:\s*`: scan left to right; on the leftmost
    match return (text before the match, text after the match) — exactly the
    two parts `re.split(..., maxsplit=1)` yields. -/
def searchSpeakerAux (acc : List Char) : List Char → Option (List Char × List Char)
  | [] => none
  | c :: cs =>
    match matchSpeakerAt (c :: cs) with
    | some rest => some (acc.reverse, rest)
    | none => searchSpeakerAux (c :: acc) cs

/-- Speaker-note marker detection and split, as used at script.py:208-209 and
    319-321.  `none` when the text does not contain the marker. -/
def searchSpeakerNotes (s : String) : Option (String × String) :=
  match searchSpeakerAux [] s.toList with
  | none => none
  | some pr => some (String.mk pr.1, String.mk pr.2)

/-- `re.sub(r'^slide\s*\d+\s*:\s*', '', text, flags=re.IGNORECASE)`
    (script.py:205 and 419) on a character list. -/
def stripSlideTagL (cs : List Char) : List Char :=
  match matchCI "slide".toList cs with
  | none => cs
  | some r1 =>
    let r2 := r1.dropWhile pyIsSpace
    if (r2.takeWhile Char.isDigit).isEmpty then cs
    else
      match (r2.dropWhile Char.isDigit).dropWhile pyIsSpace with
      | ':' :: r5 => r5.dropWhile pyIsSpace
      | _ => cs

/-- Strip a leading `Slide <n>:` marker. -/
def stripSlideTag (s : String) : String := String.mk (stripSlideTagL s.toList)

/-- `re.sub(r'^subtitle\s*:\s*', '', subheading, flags=re.IGNORECASE)`
    (script.py:273). -/
def stripSubTagL (cs : List Char) : List Char :=
  match matchCI "subtitle".toList cs with
  | none => cs
  | some r1 =>
    match r1.dropWhile pyIsSpace with
    | ':' :: r3 => r3.dropWhile pyIsSpace
    | _ => cs

/-- Strip a leading `subtitle:` marker. -/
def stripSubTag (s : String) : String := String.mk (stripSubTagL s.toList)

/-- `"\n".join(...)`. -/
def joinNL (l : List String) : String := String.intercalate "\n" l

/- ===== SafeFilename.sanitize (script.py:80-95) ===== -/

/-- The characters of the class `[<>:"/\\|?*]` in `SafeFilename.sanitize`. -/
def dangerousChar (c : Char) : Bool :=
  ['<', '>', ':', '"', '/', '\\', '|', '?', '*'].contains c

/-- `re.sub(r'\s+', '_', filename)`: each maximal run of whitespace becomes a
    single underscore.  The flag records whether the previous character was
    part of a whitespace run. -/
def collapseWs : Bool → List Char → List Char
  | _, [] => []
  | prevWs, c :: cs =>
    if pyIsSpace c then
      (if prevWs then [] else ['_']) ++ collapseWs true cs
    else c :: collapseWs false cs

/-- Models `unicodedata.normalize('NFKD', ·)` character-wise.  The listed
    decompositions agree with the Unicode character database (U+FF1A FULLWIDTH
    COLON → ':', U+00B4 ACUTE ACCENT → SPACE + COMBINING ACUTE, U+FF1F
    FULLWIDTH QUESTION MARK → '?'); all other characters used in this file are
    NFKD-inert and the function is the identity on them.  No universal theorem
    below depends on the default branch. -/
def nfkd (c : Char) : List Char :=
  if c.toNat = 0xFF1A then [':']
  else if c.toNat = 0xB4 then [' ', Char.ofNat 0x301]
  else if c.toNat = 0xFF1F then ['?']
  else [c]

/-- `SafeFilename.sanitize` (script.py:80-95): replace dangerous characters
    and whitespace runs with underscores, NFKD-normalize, drop non-ASCII,
    truncate to `max_length - 5`, and fall back to `"canvas_export"` when
    empty. -/
def sanitize (filename : String) (maxLength : Nat) : String :=
  let s1 := filename.toList.map (fun c => if dangerousChar c then '_' else c)
  let s2 := collapseWs false s1
  let s3 := s2.flatMap nfkd
  let s4 := s3.filter (fun c => c.toNat < 128)
  let s5 := if maxLength - 5 < s4.length then s4.take (maxLength - 5) else s4
  if s5.isEmpty then "canvas_export" else String.mk s5

/- ===== Document model ===== -/

/-- The tag kinds the converter distinguishes.  The first seventeen are
    exactly the tags listed in the `find_all` call at script.py:299-303
    ("interesting" nodes); `other` stands for any element with a different tag
    (never returned by that `find_all`). -/
inductive Tag where
  | h1 | h2 | h3 | h4 | h5 | h6
  | p | ul | ol | table | pre | code
  | blockquote | img | span | div
  | other
deriving DecidableEq, Repr

/-- The tag filter of the main-pass `find_all` (script.py:299-303). -/
def interestingTag : Tag → Bool
  | Tag.other => false
  | _ => true

/-- The tag filter of the title-extraction `find_all(["h1", "h2", "p"])`
    (script.py:193). -/
def isHP : Tag → Bool
  | Tag.h1 => true
  | Tag.h2 => true
  | Tag.p => true
  | _ => false

/-- Heading tags (script.py:374). -/
def isHeading : Tag → Bool
  | Tag.h1 => true
  | Tag.h2 => true
  | Tag.h3 => true
  | Tag.h4 => true
  | Tag.h5 => true
  | Tag.h6 => true
  | _ => false

/-- One `td`/`th` cell of a table row: its stripped text and whether the cell
    is a `th`. -/
structure TableCell where
  text : String
  isTh : Bool
deriving DecidableEq, Repr

/-- The rectangular grid `_add_table_to_slide` builds: row-major cell texts
    plus whether row 0 receives header styling. -/
structure TableGrid where
  cells : List (List String)
  headerStyled : Bool
deriving DecidableEq, Repr

/-- A paragraph appended to a slide's body text frame: either a flattened
    list item (with its indent level) or a code paragraph. -/
inductive SlideElement where
  | listItem (text : String) (level : Nat)
  | codeBlock (text : String)
deriving DecidableEq, Repr

/-- One output slide: its title text, body-text-frame elements in order,
    table shapes in order, and the speaker-notes text (if set). -/
structure Slide where
  title : String
  subtitleText : Option String
  elements : List SlideElement
  tables : List TableGrid
  notes : Option String
deriving DecidableEq, Repr

/-- A flattened projection of one bs4 element, in document order.  `id` is the
    node identity (Python `id(element)`), `text` is `get_text(strip=True)`,
    `classes` is the class attribute list.  The `anc*` fields record the
    `find_parent(s)` facts the pass queries; `tableRows` carries, for a table
    node, the `tr` rows with their `td`/`th` cells; `listItems` carries, for a
    list node, the (item text, nesting depth) pairs that the recursive
    flattening `_process_list_recursive` (script.py:495-535) extracts, with
    blank-text items NOT yet removed (the pass filters and clamps them). -/
structure Node where
  id : Nat
  tag : Tag
  text : String
  classes : List String
  ancUlOlLi : Bool
  ancLi : Bool
  ancP : Bool
  ancPre : Bool
  ancUlOl : Bool
  tableRows : List (List TableCell)
  listItems : List (String × Nat)
deriving DecidableEq, Repr

/-- The mutable state of one conversion: the deck built so far, the index of
    `current_slide` in it (None before the first content slide), the
    `code_buffer`, the `processed_elements` identity set, and the
    `notes_seen` / `speaker_notes_txt` pair of the generator instance. -/
structure PState where
  slides : List Slide
  curIdx : Option Nat
  codeBuffer : List String
  processed : List Nat
  notesSeen : List (Nat × String)
  notesTxt : List (Nat × String)
  slideCount : Nat
deriving DecidableEq, Repr

/-- Fresh generator state (constructor, script.py:175-181). -/
def initState : PState :=
  { slides := [], curIdx := none, codeBuffer := [], processed := [],
    notesSeen := [], notesTxt := [], slideCount := 0 }

/-- Apply `f` to the element at index `i` (identity when out of range);
    models in-place mutation of the slide object `current_slide` refers to. -/
def modifyAt (f : α → α) : List α → Nat → List α
  | [], _ => []
  | a :: l, 0 => f a :: l
  | a :: l, n + 1 => a :: modifyAt f l n

/-- `processed_elements.add(id(element))`. -/
def markProcessed (s : PState) (e : Node) : PState :=
  { s with processed := e.id :: s.processed }

/-- Code-line accumulation (script.py:338-344): push non-empty text onto
    `code_buffer`. -/
def bufferCode (s : PState) (txt : String) : PState :=
  if txt = "" then s else { s with codeBuffer := s.codeBuffer ++ [txt] }

/-- `_add_content_slide` (script.py:413-446): strip a leading `Slide N:`
    marker, truncate the title to 100 characters (appending `...`), append a
    fresh slide and make it current. -/
def add_content_slide (s : PState) (title : String) : PState :=
  let ct := stripSlideTag title
  let t2 := if 100 < ct.length then takeChars 100 ct ++ "..." else ct
  { s with slides := s.slides ++ [⟨t2, none, [], [], none⟩],
           curIdx := some s.slides.length,
           slideCount := s.slideCount + 1 }

/-- `_ensure_slide` (script.py:448-455). -/
def ensure_slide (s : PState) (defaultTitle : String) : PState :=
  match s.curIdx with
  | none => add_content_slide s defaultTitle
  | some _ => s

/-- Append one element to the current slide's body text frame. -/
def appendElem (s : PState) (el : SlideElement) : PState :=
  match s.curIdx with
  | none => s
  | some i =>
    { s with slides := modifyAt (fun sl => { sl with elements := sl.elements ++ [el] }) s.slides i }

/-- `_add_code_content` (script.py:584-604) on a string argument: skip blank
    text, else append a code paragraph truncated to
    `max_slide_content_length` (`cfg`). -/
def add_code_content (cfg : Nat) (s : PState) (txt : String) : PState :=
  if pyStrip txt = "" then s
  else appendElem s (SlideElement.codeBlock (takeChars cfg txt))

/-- The pre-dispatch flush (script.py:346-350): ensure a slide (default title
    "Content"), emit the newline-joined buffer as one code paragraph, clear
    the buffer. -/
def flushBuffer (cfg : Nat) (s : PState) : PState :=
  let s1 := ensure_slide s "Content"
  let s2 := add_code_content cfg s1 (joinNL s.codeBuffer)
  { s2 with codeBuffer := [] }

/-- `if code_buffer: <flush>` (script.py:347). -/
def flushIfPending (cfg : Nat) (s : PState) : PState :=
  if s.codeBuffer = [] then s else flushBuffer cfg s

/-- The in-loop "remaining code buffer" block (script.py:408-411).  It sits
    INSIDE the per-element loop and, unlike the pre-dispatch flush, does not
    clear the buffer; it is reachable only on branches where the buffer was
    already flushed. -/
def trailingFlush (cfg : Nat) (s : PState) : PState :=
  if s.codeBuffer = [] then s
  else add_code_content cfg (ensure_slide s "Content") (joinNL s.codeBuffer)

/-- Speaker-note attachment in the main pass (script.py:323-331): only when a
    slide is open; key is (self.slide_count, stripped text); the note text is
    written and recorded only when non-blank and not already seen. -/
def attach_note (s : PState) (notesPart : String) : PState :=
  match s.curIdx with
  | none => s
  | some i =>
    if pyStrip notesPart ≠ "" ∧ (s.slideCount, pyStrip notesPart) ∉ s.notesSeen then
      { s with notesSeen := (s.slideCount, pyStrip notesPart) :: s.notesSeen,
               notesTxt := s.notesTxt ++ [(s.slideCount, pyStrip notesPart)],
               slides := modifyAt (fun sl => { sl with notes := some (pyStrip notesPart) }) s.slides i }
    else s

/-- `_add_list_content` / `_process_list_recursive` (script.py:491-535)
    restricted to what the pass observes: each flattened item with non-empty
    text becomes one paragraph at level `min(level, 4)`, appended in order to
    the current slide.  (The text-frame placeholder-paragraph reuse and the
    shrink-to-fit sizing hint are rendering details with no bearing on the
    element sequence.) -/
def add_list_content (s : PState) (items : List (String × Nat)) : PState :=
  match s.curIdx with
  | none => s
  | some i =>
    let els := (items.filter (fun p => p.1 != "")).map
      (fun p => SlideElement.listItem p.1 (min p.2 4))
    { s with slides := modifyAt (fun sl => { sl with elements := sl.elements ++ els }) s.slides i }

/-- Column count of `_add_table_to_slide` (script.py:545):
    `max(len(cells(row)) for row in rows if cells(row))`. -/
def maxCellCount (rows : List (List TableCell)) : Nat :=
  ((rows.filter (fun r => !r.isEmpty)).map List.length).foldl Nat.max 0

/-- The grid `_add_table_to_slide` (script.py:537-581) builds, or `none` when
    nothing is inserted.  `rows` empty → early return; all rows cell-less →
    Python's `max()` over an empty generator raises ValueError, caught by the
    function's own handler (script.py:580), so nothing is inserted.  The shape
    has `len(rows)` rows (zero-cell rows included) and `max_cols` columns;
    each cell text is truncated to 200 characters, missing cells are "".
    Header styling applies to row 0 iff it contains a `th`. -/
def tableGrid (rows : List (List TableCell)) : Option TableGrid :=
  if rows.isEmpty then none
  else if (rows.filter (fun r => !r.isEmpty)).isEmpty then none
  else
    let maxCols := maxCellCount rows
    if maxCols = 0 ∨ rows.length = 0 then none
    else
      let cellText : List TableCell → Nat → String := fun r j =>
        match r[j]? with
        | some c => takeChars 200 c.text
        | none => ""
      let grid := rows.map (fun r => (List.range maxCols).map (cellText r))
      let hdr : Bool :=
        match rows.head? with
        | some r => r.any TableCell.isTh
        | none => false
      some { cells := grid, headerStyled := hdr }

/-- `_add_table_to_slide` as a state operation: append the grid (if any) to
    the current slide's shape collection. -/
def add_table_to_slide (s : PState) (rows : List (List TableCell)) : PState :=
  match tableGrid rows with
  | none => s
  | some g =>
    match s.curIdx with
    | none => s
    | some i =>
      { s with slides := modifyAt (fun sl => { sl with tables := sl.tables ++ [g] }) s.slides i }

/-- The per-node dispatch of `_process_content_elements` after the
    speaker-note, cm-line and flush steps (script.py:352-411): the nested-
    duplicate skips, then the tag `elif` chain.  For `pre`/`code` nodes the
    source passes the bs4 Tag itself to `_add_code_content` (script.py:398),
    whose `code_text.strip()` then raises TypeError (`Tag.strip` resolves via
    bs4's `__getattr__` to `find("strip")`, i.e. None); the per-node handler
    (script.py:403-406) catches it and marks the element processed, so the
    "Code" slide opened by `_ensure_slide` stays, but no code paragraph is
    appended.  Branches without `continue` fall through to the in-loop
    trailing-flush block (script.py:408-411). -/
def dispatch (cfg : Nat) (s : PState) (e : Node) : PState :=
  if (e.tag = Tag.p ∨ e.tag = Tag.span) ∧ e.ancUlOlLi then markProcessed s e
  else if e.tag = Tag.p ∧ e.ancLi then markProcessed s e
  else if e.tag = Tag.span ∧ (e.ancP ∨ e.ancLi) then markProcessed s e
  else if e.tag = Tag.code ∧ e.ancPre then markProcessed s e
  else if isHeading e.tag then
    trailingFlush cfg (markProcessed (add_content_slide s e.text) e)
  else if (e.tag = Tag.ol ∨ e.tag = Tag.ul) ∧ ¬ e.ancUlOl then
    markProcessed (add_list_content (ensure_slide s "List") e.listItems) e
  else if e.tag = Tag.table then
    markProcessed (add_table_to_slide (ensure_slide s "Content") e.tableRows) e
  else if e.tag = Tag.pre ∨ e.tag = Tag.code then
    markProcessed (ensure_slide s "Code") e
  else
    trailingFlush cfg (markProcessed s e)

/-- One iteration of the main loop of `_process_content_elements`
    (script.py:308-411): skip processed nodes; intercept the speaker-note
    marker (dropping the content part, and the whole note when no slide is
    open); accumulate cm-line containers; otherwise flush any pending code
    buffer and dispatch on the tag. -/
def step (cfg : Nat) (s : PState) (e : Node) : PState :=
  if e.id ∈ s.processed then s
  else
    match searchSpeakerNotes e.text with
    | some pr => markProcessed (attach_note s pr.2) e
    | none =>
      if e.tag = Tag.div ∧ "cm-line" ∈ e.classes then
        markProcessed (bufferCode s e.text) e
      else
        dispatch cfg (flushIfPending cfg s) e

/-- `_process_content_elements` (script.py:293-411) over the already-filtered
    element list. -/
def process_content_elements (cfg : Nat) (s : PState) (body : List Node) : PState :=
  List.foldl (step cfg) s body

/- ===== Title extraction and the full conversion ===== -/

/-- State of the title-extraction scan (script.py:197-224). -/
structure TitleState where
  heading : Option String
  subheading : Option String
  speaker : Option String
  removed : List Nat
deriving DecidableEq, Repr

/-- Python truthiness of the `heading` / `subheading` / `speaker_notes`
    locals: `None` and `""` are falsy. -/
def truthyS : Option String → Bool
  | none => false
  | some s => !(s == "")

/-- The title-extraction loop (script.py:201-224) over the `h1`/`h2`/`p`
    elements, in document order.  Each visited node's text first has a
    leading `Slide N:` marker stripped; a speaker-note match captures the
    note (overwriting any earlier capture) and decomposes the node; otherwise
    the text fills the first falsy slot among heading and subheading (the
    node is decomposed when it does).  The loop breaks once all three are
    truthy at the end of a non-note iteration.  `removed` collects the ids
    of decomposed nodes, which the main pass no longer sees. -/
def titleScan : List Node → TitleState → TitleState
  | [], st => st
  | e :: rest, st =>
    let text := stripSlideTag e.text
    match searchSpeakerNotes text with
    | some pr =>
      titleScan rest { st with speaker := some (pyStrip pr.2),
                               removed := e.id :: st.removed }
    | none =>
      let st2 :=
        if truthyS st.heading = false then
          { st with heading := some text, removed := e.id :: st.removed }
        else if truthyS st.subheading = false then
          { st with subheading := some text, removed := e.id :: st.removed }
        else st
      if truthyS st2.heading && truthyS st2.subheading && truthyS st2.speaker then st2
      else titleScan rest st2

/-- `add_custom_title_slide` (script.py:267-289): build the title slide with
    the subheading stripped of a leading `subtitle:` marker; when the speaker
    notes are non-empty attach them, and record the (1-based index, stripped
    text) key unless already seen. -/
def add_custom_title_slide (s : PState) (heading subheading speakerNotes : String) : PState :=
  if speakerNotes ≠ "" then
    if (s.slides.length + 1, pyStrip speakerNotes) ∉ s.notesSeen ∧ pyStrip speakerNotes ≠ "" then
      { s with slides := s.slides ++ [⟨heading, some (pyStrip (stripSubTag subheading)), [], [], some (pyStrip speakerNotes)⟩],
               notesSeen := (s.slides.length + 1, pyStrip speakerNotes) :: s.notesSeen,
               notesTxt := s.notesTxt ++ [(s.slides.length + 1, pyStrip speakerNotes)],
               slideCount := s.slideCount + 1 }
    else
      { s with slides := s.slides ++ [⟨heading, some (pyStrip (stripSubTag subheading)), [], [], some (pyStrip speakerNotes)⟩],
               slideCount := s.slideCount + 1 }
  else
    { s with slides := s.slides ++ [⟨heading, some (pyStrip (stripSubTag subheading)), [], [], none⟩],
             slideCount := s.slideCount + 1 }

/-- `_add_fallback_slide` (script.py:655-661). -/
def add_fallback_slide (s : PState) : PState :=
  let sl : Slide :=
    ⟨"No Content Found",
     some "The canvas appears to be empty or could not be processed.", [], [], none⟩
  { s with slides := s.slides ++ [sl], slideCount := s.slideCount + 1 }

/-- `create_enhanced_presentation` (script.py:184-249): title extraction over
    the `h1`/`h2`/`p` nodes, the title slide (falsy heading/subheading become
    `" "`, falsy notes become `""`), the main pass over the interesting nodes
    that were not decomposed, and the fallback slide when the deck would
    otherwise be empty.  `cfg` is `config.max_slide_content_length`
    (default 1000). -/
def create_enhanced_presentation (cfg : Nat) (ns : List Node) : PState :=
  let ts := titleScan (ns.filter (fun e => isHP e.tag)) ⟨none, none, none, []⟩
  let headingArg := if truthyS ts.heading then ts.heading.getD "" else " "
  let subArg := if truthyS ts.subheading then ts.subheading.getD "" else " "
  let spkArg := ts.speaker.getD ""
  let s1 := add_custom_title_slide initState headingArg subArg spkArg
  let body := ns.filter (fun e => interestingTag e.tag && !(ts.removed.contains e.id))
  let s2 := process_content_elements cfg s1 body
  if s2.slides.length = 0 then add_fallback_slide s2 else s2

/- ===== Speaker-notes sidecar file (script.py:727-748) ===== -/

/-- The cleaning loop of `_save_speaker_notes_textfile` (script.py:733-742):
    strip each note, drop blank notes and (slide, text) keys already seen. -/
def cleanedNotes (seen : List (Nat × String)) : List (Nat × String) → List (Nat × String)
  | [] => []
  | (n, note) :: rest =>
    if pyStrip note ≠ "" ∧ (n, pyStrip note) ∉ seen then
      (n, pyStrip note) :: cleanedNotes ((n, pyStrip note) :: seen) rest
    else cleanedNotes seen rest

/-- The text `_save_speaker_notes_textfile` writes: one
    `Slide <N>:\n<note>\n\n` block per cleaned note, in list order. -/
def save_speaker_notes_textfile (l : List (Nat × String)) : String :=
  String.join ((cleanedNotes [] l).map
    (fun p => "Slide " ++ toString p.1 ++ ":\n" ++ pyStrip p.2 ++ "\n\n"))

/- ===== Concrete inputs used by the theorems below ===== -/

/-- A node with no classes, no special ancestors, and no table/list payload. -/
def mkNode (i : Nat) (t : Tag) (txt : String) : Node :=
  ⟨i, t, txt, [], false, false, false, false, false, [], []⟩

/-- A code-line container: `<div class="cm-line">`. -/
def cmNode (i : Nat) (txt : String) : Node :=
  ⟨i, Tag.div, txt, ["cm-line"], false, false, false, false, false, [], []⟩

/-- A table node with the given rows; `txt` is its `get_text(strip=True)`. -/
def tblNode (i : Nat) (txt : String) (rows : List (List TableCell)) : Node :=
  ⟨i, Tag.table, txt, [], false, false, false, false, false, rows, []⟩

/-- The claimed end-to-end input of C2: heading "Intro", mixed
    paragraph with an inline speaker-note marker, and a 2×2 table. -/
def c2nodes : List Node :=
  [mkNode 0 Tag.h1 "Intro",
   mkNode 1 Tag.p "Hello Speaker Notes: remember the demo",
   tblNode 2 "abcd" [[⟨"a", false⟩, ⟨"b", false⟩], [⟨"c", false⟩, ⟨"d", false⟩]]]

/-- A `td` cell used by the C5 counterexample. -/
def c5cell : TableCell := ⟨"t", false⟩

/-- Input for the C8 counterexample: after the title slide consumes "A", "B"
    and the leading note "t", the h3 opens slide 2, and two distinct
    speaker-note paragraphs both attach to it. -/
def c8nodes : List Node :=
  [mkNode 0 Tag.h1 "A", mkNode 1 Tag.h2 "B", mkNode 2 Tag.p "Speaker Notes: t",
   mkNode 3 Tag.p "stop", mkNode 4 Tag.h3 "S",
   mkNode 5 Tag.p "Speaker Notes: x", mkNode 6 Tag.p "Speaker Notes: y"]

/-- A 1001-character code line, exceeding `max_slide_content_length`. -/
def c6longA : String := String.mk (List.replicate 1001 'a')

/-- Input for the C6 counterexample: one overlong code-line container
    followed by a non-code-line node. -/
def c6badNodes : List Node := [cmNode 0 c6longA, mkNode 1 Tag.blockquote "end"]

/-- Second input for the C6 counterexample: after the title scan is satisfied
    (heading "A", subheading "B", leading note "t", breaking at "stop"), the
    h3 opens a slide, then a code line "a", a paragraph whose text matches
    the speaker-note marker, a code line "b", and a blockquote follow.  The
    marker paragraph breaks the run of code-line containers WITHOUT flushing
    the buffer, so the maximal run ending at the blockquote is just ["b"]
    while the buffer holds ["a", "b"]. -/
def c6runNodes : List Node :=
  [mkNode 0 Tag.h1 "A", mkNode 1 Tag.h2 "B", mkNode 2 Tag.p "Speaker Notes: t",
   mkNode 3 Tag.p "stop", mkNode 4 Tag.h3 "T",
   cmNode 5 "a", mkNode 6 Tag.p "x Speaker Notes: z", cmNode 7 "b",
   mkNode 8 Tag.blockquote "end"]

/-- A state whose code buffer already holds "a" while a slide is open, as
    left behind by a code line followed by a speaker-note paragraph (which
    neither flushes nor clears the buffer).  Used by the C6 witness. -/
def c6wState : PState := { add_content_slide initState "T" with codeBuffer := ["a"] }

/-- The conclusion of the C5 theorem: the grid exists, has one row per source
    row (zero-cell rows included), `maxCellCount` columns in every row, and
    each cell is the 200-character-truncated source cell text, or `""` where
    the source row is short. -/
def C5Prop (rows : List (List TableCell)) : Prop :=
  ∃ g, tableGrid rows = some g
    ∧ g.cells.length = rows.length
    ∧ (∀ i, i < rows.length → (g.cells.getD i []).length = maxCellCount rows)
    ∧ (∀ i j, i < rows.length → j < maxCellCount rows →
        (g.cells.getD i []).getD j "" =
          (match (rows.getD i [])[j]? with
           | some c => takeChars 200 c.text
           | none => ""))

/-- Append one code paragraph to a slide (the mutation the buffer flush
    performs on the current slide). -/
def withCode (txt : String) (sl : Slide) : Slide :=
  { sl with elements := sl.elements ++ [SlideElement.codeBlock txt] }

/-- The fresh "Content"-titled slide holding one code paragraph that a flush
    with no open slide produces. -/
def contentSlideWith (txt : String) : Slide :=
  ⟨"Content", none, [SlideElement.codeBlock txt], [], none⟩

/-- The conclusion of the C6 theorem, for a run `cs` of code-line containers
    followed by a node `e`, starting from an ARBITRARY buffer `s.codeBuffer`:
    the fold over the run appends the run's texts to the buffer; the step on
    `e` first flushes and only then dispatches `e`; the flush appends exactly
    ONE CodeBlock, whose text is the newline-join of the WHOLE buffer —
    earlier buffered texts included — truncated to `cfg` characters, to the
    slide open at that point (or to a fresh "Content"-titled slide when none
    is).  The final conjunct records why earlier texts can be present at all:
    the step on ANY node whose text matches the speaker-note marker leaves
    the code buffer and the current slide untouched, so a marker node breaks
    a run without flushing. -/
def C6Prop (cfg : Nat) (s : PState) (cs : List Node) (e : Node) : Prop :=
  (List.foldl (step cfg) s cs).codeBuffer = s.codeBuffer ++ cs.map Node.text
  ∧ (List.foldl (step cfg) s cs).slides = s.slides
  ∧ (List.foldl (step cfg) s cs).curIdx = s.curIdx
  ∧ (List.foldl (step cfg) s cs).notesTxt = s.notesTxt
  ∧ step cfg (List.foldl (step cfg) s cs) e
      = dispatch cfg (flushBuffer cfg (List.foldl (step cfg) s cs)) e
  ∧ (flushBuffer cfg (List.foldl (step cfg) s cs)).codeBuffer = []
  ∧ (∀ k, s.curIdx = some k →
      (flushBuffer cfg (List.foldl (step cfg) s cs)).slides
          = modifyAt (withCode (takeChars cfg (joinNL (s.codeBuffer ++ cs.map Node.text)))) s.slides k
      ∧ (flushBuffer cfg (List.foldl (step cfg) s cs)).curIdx = some k)
  ∧ (s.curIdx = none →
      (flushBuffer cfg (List.foldl (step cfg) s cs)).slides
          = s.slides ++ [contentSlideWith (takeChars cfg (joinNL (s.codeBuffer ++ cs.map Node.text)))]
      ∧ (flushBuffer cfg (List.foldl (step cfg) s cs)).curIdx = some s.slides.length)
  ∧ (∀ (s2 : PState) (m : Node), (searchSpeakerNotes m.text).isSome →
      (step cfg s2 m).codeBuffer = s2.codeBuffer ∧ (step cfg s2 m).curIdx = s2.curIdx)

/-- The invariant tying the generator's notes state together: the recorded
    notes list has pairwise-distinct keys, every key is in the dedup set,
    texts are trimmed and non-empty, slide indices are nondecreasing and
    bounded by the slide count, and the slide count equals the deck size. -/
structure NInv (s : PState) : Prop where
  nodup : s.notesTxt.Nodup
  sub : ∀ k ∈ s.notesTxt, k ∈ s.notesSeen
  trimmed : ∀ k ∈ s.notesTxt, pyStrip k.2 = k.2 ∧ k.2 ≠ ""
  sorted : s.notesTxt.Pairwise (fun a b => a.1 ≤ b.1)
  bound : ∀ k ∈ s.notesTxt, k.1 ≤ s.slideCount
  counts : s.slideCount = s.slides.length

/- ===== Theorems ===== -/

/-- C1 counterexample: converting an input with no interesting nodes yields a
    deck with exactly ONE slide (the placeholder title slide) and no
    "No Content Found" fallback slide, contradicting the claimed
    title-plus-fallback pair. -/
theorem c1_counterexample :
    (create_enhanced_presentation 1000 ([] : List Node)).slides.map Slide.title = [" "]
    ∧ (create_enhanced_presentation 1000 ([] : List Node)).slides.length ≠ 2 := by
  decide

/-- Any `h1`/`h2`/`p` node is also an interesting node. -/
theorem isHP_interesting {t : Tag} (h : isHP t = true) : interestingTag t = true := by
  cases t <;> simp_all [isHP, interestingTag]

/-- C1 (amended): for every input node sequence containing zero interesting
    nodes, the conversion succeeds and the output deck consists of exactly one
    slide — the placeholder title slide; the "No Content Found" fallback is
    guarded by `len(prs.slides) == 0`, which the unconditional title slide
    makes unreachable. -/
theorem c1_theorem (cfg : Nat) (ns : List Node)
    (h : ∀ e ∈ ns, interestingTag e.tag = false) :
    (create_enhanced_presentation cfg ns).slides = [⟨" ", some "", [], [], none⟩] := by
  have h1 : ns.filter (fun e => isHP e.tag) = [] := by
    rw [List.filter_eq_nil_iff]
    intro e he hHP
    have := isHP_interesting hHP
    rw [h e he] at this
    exact Bool.noConfusion this
  have h2 : ∀ rem : List Nat,
      ns.filter (fun e => interestingTag e.tag && !(rem.contains e.id)) = [] := by
    intro rem
    rw [List.filter_eq_nil_iff]
    intro e he hcontra
    rw [h e he] at hcontra
    exact Bool.noConfusion hcontra
  unfold create_enhanced_presentation process_content_elements
  simp only [h1, h2]
  rfl

/-- C1 witness: a sequence consisting of one non-interesting node. -/
theorem c1_witness :
    (create_enhanced_presentation 1000 [mkNode 0 Tag.other "x"]).slides =
      [⟨" ", some "", [], [], none⟩] :=
  c1_theorem 1000 [mkNode 0 Tag.other "x"] (by decide)

/-- C2 counterexample: on the claimed input the content slide is titled
    "Content", not "Intro" (the heading is consumed by title extraction), and
    the single recorded note is keyed to slide 1 (the title slide), not
    slide 2. -/
theorem c2_counterexample :
    (create_enhanced_presentation 1000 c2nodes).slides.map Slide.title = ["Intro", "Content"]
    ∧ (create_enhanced_presentation 1000 c2nodes).notesTxt ≠ [(2, "remember the demo")] := by
  decide

/-- C2 (amended): on that input the deck is a title slide titled "Intro"
    carrying the note "remember the demo" (the h1 and the paragraph are both
    consumed during title extraction), plus one content slide titled
    "Content" holding the 2×2 table grid; the notes collection is exactly
    [(1, "remember the demo")]. -/
theorem c2_theorem :
    (create_enhanced_presentation 1000 c2nodes).slides =
      [⟨"Intro", some "", [], [], some "remember the demo"⟩,
       ⟨"Content", none, [], [⟨[["a", "b"], ["c", "d"]], false⟩], none⟩]
    ∧ (create_enhanced_presentation 1000 c2nodes).notesTxt = [(1, "remember the demo")] := by
  decide

/-- C3: evaluating the pass on a single `pre` node with text "print(1)".
    `_ensure_slide` opens the "Code" slide, but `_add_code_content` is handed
    the bs4 Tag instead of a string and raises TypeError, so no code
    paragraph is appended: the slide's element list stays empty. -/
theorem c3_theorem :
    (create_enhanced_presentation 1000 [mkNode 0 Tag.pre "print(1)"]).slides.map
      (fun sl => (sl.title, sl.elements)) = [(" ", []), ("Code", [])] := by
  decide

/-- C4: evaluating the pass on a heading followed by a trailing code-line
    container.  The buffered line "x" is never flushed — the "remaining code
    buffer" block sits inside the per-element loop, which cm-line iterations
    skip via `continue` — so the slide gets no CodeBlock and the buffer is
    still non-empty when the pass ends. -/
theorem c4_theorem :
    (create_enhanced_presentation 1000 [mkNode 0 Tag.h3 "T", cmNode 1 "x"]).slides.map
      (fun sl => (sl.title, sl.elements)) = [(" ", []), ("T", [])]
    ∧ (create_enhanced_presentation 1000 [mkNode 0 Tag.h3 "T", cmNode 1 "x"]).codeBuffer = ["x"] := by
  decide

/-- C5 counterexample: a table whose rows have cell counts [3,1,0,2] produces
    a grid of FOUR rows (the zero-cell row becomes an all-empty row) by three
    columns, not the claimed three rows. -/
theorem c5_counterexample :
    tableGrid [[c5cell, c5cell, c5cell], [c5cell], [], [c5cell, c5cell]] =
      some ⟨[["t", "t", "t"], ["t", "", ""], ["", "", ""], ["t", "t", ""]], false⟩
    ∧ (tableGrid [[c5cell, c5cell, c5cell], [c5cell], [], [c5cell, c5cell]]).map
        (fun g => g.cells.length) ≠ some 3 := by
  decide

/-- C8 counterexample: a conversion can accumulate two distinct notes for the
    same slide, and the sidecar file then contains two "Slide 2:" blocks —
    not one block per noted slide. -/
theorem c8_counterexample :
    (create_enhanced_presentation 1000 c8nodes).notesTxt = [(1, "t"), (2, "x"), (2, "y")]
    ∧ save_speaker_notes_textfile (create_enhanced_presentation 1000 c8nodes).notesTxt =
        "Slide 1:\nt\n\nSlide 2:\nx\n\nSlide 2:\ny\n\n" := by
  decide

/-- C9 counterexample: NFKD normalization runs AFTER the dangerous-character
    and whitespace replacement, so U+FF1A FULLWIDTH COLON sanitizes to the
    forbidden ":" and U+00B4 ACUTE ACCENT sanitizes to a lone space. -/
theorem c9_counterexample :
    sanitize (String.mk [Char.ofNat 0xFF1A]) 100 = ":"
    ∧ dangerousChar ':' = true
    ∧ sanitize (String.mk [Char.ofNat 0xB4]) 100 = " "
    ∧ pyIsSpace ' ' = true := by
  decide

/-- C6 counterexample: the claim fails in two ways.  (1) On `c6runNodes` the
    maximal run of code-line containers ending at the blockquote is just
    ["b"] — the marker paragraph between "a" and "b" breaks the run — yet the
    single flushed CodeBlock has text "a\nb": the speaker-note branch
    continues BEFORE the flush (script.py:335 vs 347), so the buffered "a"
    survives the marker node and is included.  (2) On `c6badNodes` the
    flushed text is truncated to `max_slide_content_length` (1000), differing
    from the claimed untruncated join of a 1001-character run. -/
theorem c6_counterexample :
    (create_enhanced_presentation 1000 c6runNodes).slides.map
      (fun sl => (sl.title, sl.elements)) =
      [("A", []), ("T", [SlideElement.codeBlock "a\nb"])]
    ∧ "a\nb" ≠ joinNL ["b"]
    ∧ (create_enhanced_presentation 1000 c6badNodes).slides.map
      (fun sl => (sl.title, sl.elements)) =
      [(" ", []), ("Content", [SlideElement.codeBlock (String.mk (List.replicate 1000 'a'))])]
    ∧ String.mk (List.replicate 1000 'a') ≠ joinNL [c6longA] := by
  decide

/-- C10: in the main pass, a speaker-note node encountered while no slide is
    open changes nothing but the processed set: the note is attached to no
    slide and recorded in neither `notes_seen` nor `speaker_notes_txt`. -/
theorem c10_theorem (cfg : Nat) (s : PState) (e : Node)
    (h1 : e.id ∉ s.processed)
    (h2 : (searchSpeakerNotes e.text).isSome)
    (h3 : s.curIdx = none) :
    step cfg s e = { s with processed := e.id :: s.processed } := by
  obtain ⟨pr, hpr⟩ := Option.isSome_iff_exists.mp h2
  have ha : attach_note s pr.2 = s := by
    unfold attach_note
    rw [h3]
  unfold step
  rw [if_neg h1, hpr]
  show markProcessed (attach_note s pr.2) e = _
  rw [ha]
  rfl

/-- C10 witness: a speaker-note paragraph hitting the fresh state. -/
theorem c10_witness :
    step 1000 initState (mkNode 5 Tag.p "Speaker Notes: hi") =
      { initState with processed := [5] } :=
  c10_theorem 1000 initState (mkNode 5 Tag.p "Speaker Notes: hi") (by decide) (by decide) rfl

/-- C9 (amended): for every input string the sanitizer returns a non-empty
    ASCII-only string of length at most 95 (the fallback "canvas_export"
    included); the no-forbidden-character / no-whitespace guarantee does NOT
    hold in general, because NFKD normalization runs after the replacement
    step and can reintroduce such ASCII characters (see the
    counterexample). -/
theorem c9_theorem (s : String) :
    sanitize s 100 ≠ ""
    ∧ (sanitize s 100).length ≤ 95
    ∧ ∀ c ∈ (sanitize s 100).toList, c.toNat < 128 := by
  have key : ∀ l4 : List Char, (∀ c ∈ l4, c.toNat < 128) →
      (let s5 := if 95 < l4.length then l4.take 95 else l4
       let r := if s5.isEmpty then "canvas_export" else String.mk s5
       r ≠ "" ∧ r.length ≤ 95 ∧ ∀ c ∈ r.toList, c.toNat < 128) := by
    intro l4 h4
    by_cases h5 : (if 95 < l4.length then l4.take 95 else l4).isEmpty
    · simp only [h5, if_true]
      exact ⟨by decide, by decide, by decide⟩
    · simp only [h5, if_false]
      have hne : (if 95 < l4.length then l4.take 95 else l4) ≠ [] := by
        intro h
        rw [h] at h5
        exact h5 rfl
      refine ⟨?_, ?_, ?_⟩
      · intro h
        exact hne (congrArg String.data h)
      · show (if 95 < l4.length then l4.take 95 else l4).length ≤ 95
        by_cases hl : 95 < l4.length
        · rw [if_pos hl, List.length_take]
          exact Nat.min_le_left _ _
        · rw [if_neg hl]
          omega
      · intro c hc
        have hc2 : c ∈ (if 95 < l4.length then l4.take 95 else l4) := hc
        by_cases hl : 95 < l4.length
        · rw [if_pos hl] at hc2
          exact h4 c (List.mem_of_mem_take hc2)
        · rw [if_neg hl] at hc2
          exact h4 c hc2
  have hmem : ∀ c ∈ ((collapseWs false (s.toList.map
        (fun c => if dangerousChar c then '_' else c))).flatMap nfkd).filter
        (fun c => c.toNat < 128), c.toNat < 128 := by
    intro c hc
    simpa using (List.mem_filter.mp hc).2
  exact key _ hmem

/-- The seed of a `foldl Nat.max` is a lower bound of the result. -/
theorem init_le_foldl_max : ∀ (l : List Nat) (init : Nat), init ≤ l.foldl Nat.max init := by
  intro l
  induction l with
  | nil => intro init; exact Nat.le_refl _
  | cons b t ih =>
    intro init
    calc init ≤ Nat.max init b := Nat.le_max_left _ _
    _ ≤ t.foldl Nat.max (Nat.max init b) := ih _

/-- Every member of the list is a lower bound of its `foldl Nat.max`. -/
theorem le_foldl_max : ∀ (l : List Nat) (a : Nat), a ∈ l → ∀ init, a ≤ l.foldl Nat.max init := by
  intro l
  induction l with
  | nil => intro a ha; exact absurd ha (List.not_mem_nil a)
  | cons b t ih =>
    intro a ha init
    rcases List.mem_cons.mp ha with h | h
    · subst h
      calc a ≤ Nat.max init a := Nat.le_max_right _ _
      _ ≤ t.foldl Nat.max (Nat.max init a) := init_le_foldl_max _ _
    · exact ih a h _

/-- C5 (amended): for every table node with at least one non-empty row, rows
    with zero cells are ignored when computing the column count, but they are
    NOT dropped from the grid: the grid has one row per source row (a
    zero-cell row renders as an all-empty row), `max` cells per row, with a
    short row's missing trailing cells filled as empty strings. -/
theorem c5_theorem (rows : List (List TableCell)) (h : ∃ r ∈ rows, r ≠ []) :
    C5Prop rows := by
  obtain ⟨r, hr, hrne⟩ := h
  have hrows : rows.isEmpty = false := by
    cases rows with
    | nil => exact absurd hr (List.not_mem_nil r)
    | cons a t => rfl
  have hrfil : r ∈ rows.filter (fun r => !r.isEmpty) := by
    refine List.mem_filter.mpr ⟨hr, ?_⟩
    cases r with
    | nil => exact absurd rfl hrne
    | cons a t => rfl
  have hfil : (rows.filter (fun r => !r.isEmpty)).isEmpty = false := by
    cases hfe : rows.filter (fun r => !r.isEmpty) with
    | nil => rw [hfe] at hrfil; exact absurd hrfil (List.not_mem_nil r)
    | cons a t => rfl
  have hmax : 1 ≤ maxCellCount rows := by
    have h1 : r.length ∈ (rows.filter (fun r => !r.isEmpty)).map List.length :=
      List.mem_map_of_mem List.length hrfil
    have h2 : 1 ≤ r.length := List.length_pos.mpr hrne
    exact Nat.le_trans h2 (le_foldl_max _ _ h1 0)
  have hmaxne : ¬ (maxCellCount rows = 0 ∨ rows.length = 0) := by
    rintro (h0 | h0)
    · omega
    · rw [List.length_eq_zero] at h0
      subst h0
      exact absurd hr (List.not_mem_nil r)
  have hg : tableGrid rows = some
      ⟨rows.map (fun r => (List.range (maxCellCount rows)).map (fun j =>
          match r[j]? with
          | some c => takeChars 200 c.text
          | none => "")),
        (match rows.head? with
         | some r => r.any TableCell.isTh
         | none => false)⟩ := by
    unfold tableGrid
    simp only [hrows, hfil, if_neg hmaxne, Bool.false_eq_true, if_false]
  refine ⟨_, hg, ?_, ?_, ?_⟩
  · simp [List.length_map]
  · intro i hi
    have hget : rows[i]? = some rows[i] := List.getElem?_eq_getElem hi
    simp [List.getD_eq_getElem?_getD, List.getElem?_map, hget]
  · intro i j hi hj
    have hget : rows[i]? = some rows[i] := List.getElem?_eq_getElem hi
    have hrange : (List.range (maxCellCount rows))[j]? = some j := by
      simp [List.getElem?_range hj]
    have hgd : rows.getD i [] = rows[i] := by
      simp [List.getD_eq_getElem?_getD, hget]
    simp only [List.getD_eq_getElem?_getD, List.getElem?_map, hget, Option.map_some',
      Option.getD_some, hrange, hgd]

/-- C5 witness: a one-row, one-cell table. -/
theorem c5_witness : C5Prop [[⟨"x", false⟩]] :=
  c5_theorem [[⟨"x", false⟩]] ⟨[⟨"x", false⟩], by simp, by simp⟩

/-- Modifying the appended last element of a list. -/
theorem modifyAt_append (f : α → α) : ∀ (l : List α) (a : α),
    modifyAt f (l ++ [a]) l.length = l ++ [f a] := by
  intro l
  induction l with
  | nil => intro a; rfl
  | cons b t ih =>
    intro a
    show b :: modifyAt f (t ++ [a]) t.length = b :: (t ++ [f a])
    rw [ih]

/-- A fresh, non-note, non-code-line node is handled by flushing any pending
    code buffer and then dispatching on its tag (script.py:346-411). -/
theorem step_not_note (cfg : Nat) (s : PState) (e : Node)
    (h1 : e.id ∉ s.processed)
    (h2 : searchSpeakerNotes e.text = none)
    (h3 : ¬ (e.tag = Tag.div ∧ "cm-line" ∈ e.classes)) :
    step cfg s e = dispatch cfg (flushIfPending cfg s) e := by
  unfold step
  rw [if_neg h1, h2]
  show (if e.tag = Tag.div ∧ "cm-line" ∈ e.classes
        then markProcessed (bufferCode s e.text) e
        else dispatch cfg (flushIfPending cfg s) e) = _
  rw [if_neg h3]

/-- Folding the step function over a run of fresh, non-empty, non-note
    code-line containers only accumulates their texts in the code buffer and
    their ids in the processed set. -/
theorem foldCm (cfg : Nat) : ∀ (cs : List Node) (s : PState),
    (∀ n ∈ cs, n.tag = Tag.div ∧ "cm-line" ∈ n.classes ∧ n.text ≠ ""
        ∧ searchSpeakerNotes n.text = none ∧ n.id ∉ s.processed) →
    (cs.map Node.id).Nodup →
    List.foldl (step cfg) s cs =
      { s with codeBuffer := s.codeBuffer ++ cs.map Node.text,
               processed := (cs.map Node.id).reverse ++ s.processed } := by
  intro cs
  induction cs with
  | nil =>
    intro s _ _
    simp
  | cons c t ih =>
    intro s hall hnd
    obtain ⟨htag, hcls, htxt, hsn, hpr⟩ := hall c (List.mem_cons_self c t)
    have hstep : step cfg s c =
        { s with codeBuffer := s.codeBuffer ++ [c.text], processed := c.id :: s.processed } := by
      unfold step
      rw [if_neg hpr, hsn]
      show (if c.tag = Tag.div ∧ "cm-line" ∈ c.classes
            then markProcessed (bufferCode s c.text) c
            else dispatch cfg (flushIfPending cfg s) c) = _
      rw [if_pos ⟨htag, hcls⟩]
      unfold markProcessed bufferCode
      rw [if_neg htxt]
    have hcid : c.id ∉ t.map Node.id := by
      have := List.nodup_cons.mp hnd
      exact this.1
    have hall2 : ∀ n ∈ t, n.tag = Tag.div ∧ "cm-line" ∈ n.classes ∧ n.text ≠ ""
        ∧ searchSpeakerNotes n.text = none
        ∧ n.id ∉ ({ s with codeBuffer := s.codeBuffer ++ [c.text],
                           processed := c.id :: s.processed } : PState).processed := by
      intro n hn
      obtain ⟨a1, a2, a3, a4, a5⟩ := hall n (List.mem_cons_of_mem c hn)
      refine ⟨a1, a2, a3, a4, ?_⟩
      intro hmem
      rcases List.mem_cons.mp hmem with h | h
      · exact hcid (h ▸ List.mem_map_of_mem Node.id hn)
      · exact a5 h
    have hnd2 : (t.map Node.id).Nodup := (List.nodup_cons.mp hnd).2
    show List.foldl (step cfg) (step cfg s c) t = _
    rw [hstep, ih _ hall2 hnd2]
    simp [List.append_assoc]

/-- Flushing the buffer while a slide is open appends exactly one CodeBlock
    (the truncated newline-join) to it and clears the buffer. -/
theorem flush_some (cfg : Nat) (s' : PState) (k : Nat) (ts : List String)
    (hk : s'.curIdx = some k) (hb : s'.codeBuffer = ts)
    (ht : pyStrip (joinNL ts) ≠ "") :
    flushBuffer cfg s' =
      { s' with slides := modifyAt (withCode (takeChars cfg (joinNL ts))) s'.slides k,
                codeBuffer := [] } := by
  unfold flushBuffer ensure_slide add_code_content appendElem
  rw [hb]
  simp only [hk, if_neg ht]
  rfl

/-- Flushing the buffer with no slide open first opens a slide titled
    "Content", then appends the single CodeBlock to it. -/
theorem flush_none (cfg : Nat) (s' : PState) (ts : List String)
    (hk : s'.curIdx = none) (hb : s'.codeBuffer = ts)
    (ht : pyStrip (joinNL ts) ≠ "") :
    flushBuffer cfg s' =
      { s' with slides := s'.slides ++ [contentSlideWith (takeChars cfg (joinNL ts))],
                curIdx := some s'.slides.length,
                slideCount := s'.slideCount + 1,
                codeBuffer := [] } := by
  have h0 : flushBuffer cfg s' =
      { add_code_content cfg (ensure_slide s' "Content") (joinNL s'.codeBuffer) with
          codeBuffer := [] } := rfl
  have hcontent : ensure_slide s' "Content" =
      { s' with slides := s'.slides ++ [⟨"Content", none, [], [], none⟩],
                curIdx := some s'.slides.length, slideCount := s'.slideCount + 1 } := by
    unfold ensure_slide
    rw [hk]
    rfl
  rw [h0, hb, hcontent]
  unfold add_code_content appendElem
  rw [if_neg ht]
  simp only [modifyAt_append, List.nil_append]
  rfl

/-- In the main pass, a step on any node whose text matches the speaker-note
    marker leaves the code buffer and the current slide unchanged: the note
    branch continues before the buffer-flush step, so a marker node breaks a
    run of code-line containers WITHOUT flushing (script.py:335 vs 347). -/
theorem step_note_buffer (cfg : Nat) (s2 : PState) (m : Node)
    (hm : (searchSpeakerNotes m.text).isSome) :
    (step cfg s2 m).codeBuffer = s2.codeBuffer ∧ (step cfg s2 m).curIdx = s2.curIdx := by
  have hattach : (attach_note s2 ((searchSpeakerNotes m.text).getD ("", "")).2).codeBuffer
        = s2.codeBuffer
      ∧ (attach_note s2 ((searchSpeakerNotes m.text).getD ("", "")).2).curIdx = s2.curIdx := by
    unfold attach_note
    split
    · exact ⟨rfl, rfl⟩
    · split
      · exact ⟨rfl, rfl⟩
      · exact ⟨rfl, rfl⟩
  by_cases hp : m.id ∈ s2.processed
  · unfold step
    rw [if_pos hp]
    exact ⟨rfl, rfl⟩
  · obtain ⟨pr, hpr⟩ := Option.isSome_iff_exists.mp hm
    have hget : ((searchSpeakerNotes m.text).getD ("", "")).2 = pr.2 := by
      rw [hpr]
      rfl
    rw [hget] at hattach
    unfold step
    rw [if_neg hp, hpr]
    exact hattach

/-- C6 (amended): when a run of code-line containers with non-empty texts is
    followed by a non-code-line, non-speaker-note node, exactly one CodeBlock
    is appended before that node is handled — to the slide open at that
    point, or to a fresh "Content" slide — and its text is the newline-join
    of the ENTIRE code buffer at that moment (the run's texts appended to
    whatever was already buffered), truncated to the configured maximum
    content length.  The buffer equals the maximal run's texts only when it
    was empty at the run's start: a speaker-note node in between breaks the
    run without flushing or clearing the buffer (last conjunct of
    `C6Prop`). -/
theorem c6_theorem (cfg : Nat) (s : PState) (cs : List Node) (e : Node)
    (hne : cs ≠ [])
    (hcm : ∀ n ∈ cs, n.tag = Tag.div ∧ "cm-line" ∈ n.classes ∧ n.text ≠ ""
        ∧ searchSpeakerNotes n.text = none ∧ n.id ∉ s.processed)
    (hids : (cs.map Node.id).Nodup)
    (he1 : ¬ (e.tag = Tag.div ∧ "cm-line" ∈ e.classes))
    (he2 : searchSpeakerNotes e.text = none)
    (he3 : e.id ∉ s.processed)
    (he4 : e.id ∉ cs.map Node.id)
    (htrim : pyStrip (joinNL (s.codeBuffer ++ cs.map Node.text)) ≠ "") :
    C6Prop cfg s cs e := by
  have hfold := foldCm cfg cs s hcm hids
  have hbufeq : (List.foldl (step cfg) s cs).codeBuffer
      = s.codeBuffer ++ cs.map Node.text := by rw [hfold]
  have hsl : (List.foldl (step cfg) s cs).slides = s.slides := by rw [hfold]
  have hcur : (List.foldl (step cfg) s cs).curIdx = s.curIdx := by rw [hfold]
  have hnt : (List.foldl (step cfg) s cs).notesTxt = s.notesTxt := by rw [hfold]
  have hproc : (List.foldl (step cfg) s cs).processed
      = (cs.map Node.id).reverse ++ s.processed := by rw [hfold]
  have happne : s.codeBuffer ++ cs.map Node.text ≠ [] := by
    intro hmm
    exact hne (List.map_eq_nil_iff.mp (List.append_eq_nil.mp hmm).2)
  have hen2 : e.id ∉ (List.foldl (step cfg) s cs).processed := by
    rw [hproc]
    intro hmem
    rcases List.mem_append.mp hmem with h | h
    · exact he4 (List.mem_reverse.mp h)
    · exact he3 h
  have hflushif : flushIfPending cfg (List.foldl (step cfg) s cs)
      = flushBuffer cfg (List.foldl (step cfg) s cs) := by
    unfold flushIfPending
    rw [if_neg (by rw [hbufeq]; exact happne)]
  refine ⟨hbufeq, hsl, hcur, hnt, ?_, ?_, ?_, ?_, ?_⟩
  · rw [step_not_note cfg (List.foldl (step cfg) s cs) e hen2 he2 he1, hflushif]
  · unfold flushBuffer
    rfl
  · intro k hk
    have hk2 : (List.foldl (step cfg) s cs).curIdx = some k := by rw [hcur]; exact hk
    rw [flush_some cfg _ k (s.codeBuffer ++ cs.map Node.text) hk2 hbufeq htrim]
    exact ⟨by simp only [hsl], by simp only [hcur, hk]⟩
  · intro hk
    have hk2 : (List.foldl (step cfg) s cs).curIdx = none := by rw [hcur]; exact hk
    rw [flush_none cfg _ (s.codeBuffer ++ cs.map Node.text) hk2 hbufeq htrim]
    exact ⟨by simp only [hsl], by simp only [hsl]⟩
  · intro s2 m hm
    exact step_note_buffer cfg s2 m hm

/-- C6 witness: a run consisting of the single code line "b" hitting a state
    whose buffer already holds "a" (as a preceding code line followed by a
    speaker-note paragraph leaves it), followed by a blockquote: the flushed
    CodeBlock is "a\nb". -/
theorem c6_witness :
    C6Prop 1000 c6wState [cmNode 1 "b"] (mkNode 2 Tag.blockquote "q") :=
  c6_theorem 1000 c6wState [cmNode 1 "b"] (mkNode 2 Tag.blockquote "q")
    (by decide) (by decide) (by decide) (by decide) (by decide) (by decide)
    (by decide) (by decide)

/-- The head surviving a `dropWhile` fails the predicate. -/
theorem dropWhile_head_false (p : α → Bool) : ∀ (l : List α) (a : α) (as : List α),
    l.dropWhile p = a :: as → p a = false := by
  intro l
  induction l with
  | nil =>
    intro a as h
    simp [List.dropWhile] at h
  | cons c cs ih =>
    intro a as h
    rw [List.dropWhile_cons] at h
    by_cases hc : p c
    · rw [if_pos hc] at h
      exact ih a as h
    · rw [if_neg hc] at h
      injection h with h1 _
      subst h1
      simpa using hc

/-- Stripping from both ends is idempotent on character lists. -/
theorem pyStripL_idem (l : List Char) : pyStripL (pyStripL l) = pyStripL l := by
  have hdef : ∀ x : List Char,
      pyStripL x = List.rdropWhile pyIsSpace (List.dropWhile pyIsSpace x) := fun _ => rfl
  rw [hdef, hdef]
  have hstep1 : List.dropWhile pyIsSpace
      (List.rdropWhile pyIsSpace (List.dropWhile pyIsSpace l))
      = List.rdropWhile pyIsSpace (List.dropWhile pyIsSpace l) := by
    cases hr : List.rdropWhile pyIsSpace (List.dropWhile pyIsSpace l) with
    | nil => rfl
    | cons a as =>
      obtain ⟨t, ht⟩ := List.rdropWhile_prefix pyIsSpace (List.dropWhile pyIsSpace l)
      rw [hr] at ht
      have hpa : pyIsSpace a = false := by
        refine dropWhile_head_false pyIsSpace l a (as ++ t) ?_
        rw [← ht]
        rfl
      rw [List.dropWhile_cons, hpa]
      simp
  rw [hstep1]
  have h2 := List.rdropWhile_idempotent pyIsSpace (List.dropWhile pyIsSpace l)
  exact h2

/-- Python `.strip()` is idempotent. -/
theorem pyStrip_idem (s : String) : pyStrip (pyStrip s) = pyStrip s := by
  show String.mk (pyStripL (String.mk (pyStripL s.toList)).toList) = _
  exact congrArg String.mk (pyStripL_idem s.toList)

/-- `modifyAt` preserves length. -/
theorem length_modifyAt (f : α → α) : ∀ (l : List α) (i : Nat),
    (modifyAt f l i).length = l.length := by
  intro l
  induction l with
  | nil => intro i; rfl
  | cons a t ih =>
    intro i
    cases i with
    | zero => rfl
    | succ n =>
      show (a :: modifyAt f t n).length = (a :: t).length
      simp [ih]

/-- Transport `NInv` to a state with the same notes fields and a
    non-decreased consistent slide count. -/
theorem ninv_steady {s s' : PState} (inv : NInv s)
    (h1 : s'.notesTxt = s.notesTxt) (h2 : s'.notesSeen = s.notesSeen)
    (h3 : s.slideCount ≤ s'.slideCount) (h4 : s'.slideCount = s'.slides.length) :
    NInv s' := by
  refine ⟨?_, ?_, ?_, ?_, ?_, h4⟩
  · rw [h1]; exact inv.nodup
  · rw [h1, h2]; exact inv.sub
  · rw [h1]; exact inv.trimmed
  · rw [h1]; exact inv.sorted
  · rw [h1]; intro k hk; exact Nat.le_trans (inv.bound k hk) h3

theorem ninv_mark {s : PState} (inv : NInv s) (e : Node) : NInv (markProcessed s e) :=
  ninv_steady inv rfl rfl (Nat.le_refl _) inv.counts

theorem ninv_buffer {s : PState} (inv : NInv s) (txt : String) : NInv (bufferCode s txt) := by
  unfold bufferCode
  split
  · exact inv
  · exact ninv_steady inv rfl rfl (Nat.le_refl _) inv.counts

theorem ninv_add_content {s : PState} (inv : NInv s) (t : String) :
    NInv (add_content_slide s t) := by
  refine ninv_steady inv rfl rfl (Nat.le_succ _) ?_
  simp [add_content_slide, inv.counts]

theorem ninv_ensure {s : PState} (inv : NInv s) (t : String) : NInv (ensure_slide s t) := by
  unfold ensure_slide
  split
  · exact ninv_add_content inv t
  · exact inv

theorem ninv_appendElem {s : PState} (inv : NInv s) (el : SlideElement) :
    NInv (appendElem s el) := by
  unfold appendElem
  split
  · exact inv
  · refine ninv_steady inv rfl rfl (Nat.le_refl _) ?_
    show s.slideCount = (modifyAt _ s.slides _).length
    rw [length_modifyAt]
    exact inv.counts

theorem ninv_add_code {s : PState} (inv : NInv s) (cfg : Nat) (txt : String) :
    NInv (add_code_content cfg s txt) := by
  unfold add_code_content
  split
  · exact inv
  · exact ninv_appendElem inv _

theorem ninv_flushBuffer {s : PState} (inv : NInv s) (cfg : Nat) :
    NInv (flushBuffer cfg s) := by
  have h2 := ninv_add_code (ninv_ensure inv "Content") cfg (joinNL s.codeBuffer)
  exact ninv_steady h2 rfl rfl (Nat.le_refl _) h2.counts

theorem ninv_flushIf {s : PState} (inv : NInv s) (cfg : Nat) :
    NInv (flushIfPending cfg s) := by
  unfold flushIfPending
  split
  · exact inv
  · exact ninv_flushBuffer inv cfg

theorem ninv_trailing {s : PState} (inv : NInv s) (cfg : Nat) :
    NInv (trailingFlush cfg s) := by
  unfold trailingFlush
  split
  · exact inv
  · exact ninv_add_code (ninv_ensure inv "Content") cfg _

theorem ninv_list {s : PState} (inv : NInv s) (items : List (String × Nat)) :
    NInv (add_list_content s items) := by
  unfold add_list_content
  split
  · exact inv
  · refine ninv_steady inv rfl rfl (Nat.le_refl _) ?_
    show s.slideCount = (modifyAt _ s.slides _).length
    rw [length_modifyAt]
    exact inv.counts

theorem ninv_table {s : PState} (inv : NInv s) (rows : List (List TableCell)) :
    NInv (add_table_to_slide s rows) := by
  unfold add_table_to_slide
  split
  · exact inv
  · split
    · exact inv
    · refine ninv_steady inv rfl rfl (Nat.le_refl _) ?_
      show s.slideCount = (modifyAt _ s.slides _).length
      rw [length_modifyAt]
      exact inv.counts

theorem ninv_attach {s : PState} (inv : NInv s) (txt : String) :
    NInv (attach_note s txt) := by
  unfold attach_note
  split
  · exact inv
  · split
    next h =>
      obtain ⟨hne, hnotseen⟩ := h
      have hnotl : (s.slideCount, pyStrip txt) ∉ s.notesTxt := by
        intro hmem
        exact hnotseen (inv.sub _ hmem)
      refine ⟨?_, ?_, ?_, ?_, ?_, ?_⟩
      · rw [List.nodup_append]
        refine ⟨inv.nodup, List.nodup_singleton _, ?_⟩
        intro x hx hx2
        rw [List.mem_singleton] at hx2
        subst hx2
        exact hnotl hx
      · intro k hk
        rcases List.mem_append.mp hk with h | h
        · exact List.mem_cons_of_mem _ (inv.sub k h)
        · rw [List.mem_singleton] at h
          subst h
          exact List.mem_cons_self _ _
      · intro k hk
        rcases List.mem_append.mp hk with h | h
        · exact inv.trimmed k h
        · rw [List.mem_singleton] at h
          subst h
          exact ⟨pyStrip_idem txt, hne⟩
      · rw [List.pairwise_append]
        refine ⟨inv.sorted, List.pairwise_singleton _ _, ?_⟩
        intro a ha b hb
        rw [List.mem_singleton] at hb
        subst hb
        exact inv.bound a ha
      · intro k hk
        rcases List.mem_append.mp hk with h | h
        · exact inv.bound k h
        · rw [List.mem_singleton] at h
          subst h
          exact Nat.le_refl _
      · show s.slideCount = (modifyAt _ s.slides _).length
        rw [length_modifyAt]
        exact inv.counts
    next _ => exact inv

theorem ninv_dispatch (cfg : Nat) (e : Node) {s : PState} (inv : NInv s) :
    NInv (dispatch cfg s e) := by
  unfold dispatch
  split
  · exact ninv_mark inv e
  split
  · exact ninv_mark inv e
  split
  · exact ninv_mark inv e
  split
  · exact ninv_mark inv e
  split
  · exact ninv_trailing (ninv_mark (ninv_add_content inv e.text) e) cfg
  split
  · exact ninv_mark (ninv_list (ninv_ensure inv "List") e.listItems) e
  split
  · exact ninv_mark (ninv_table (ninv_ensure inv "Content") e.tableRows) e
  split
  · exact ninv_mark (ninv_ensure inv "Code") e
  · exact ninv_trailing (ninv_mark inv e) cfg

theorem ninv_step (cfg : Nat) (e : Node) {s : PState} (inv : NInv s) :
    NInv (step cfg s e) := by
  unfold step
  split
  · exact inv
  · split
    · exact ninv_mark (ninv_attach inv _) e
    · split
      · exact ninv_mark (ninv_buffer inv e.text) e
      · exact ninv_dispatch cfg e (ninv_flushIf inv cfg)

theorem ninv_fold (cfg : Nat) : ∀ (l : List Node) {s : PState}, NInv s →
    NInv (List.foldl (step cfg) s l) := by
  intro l
  induction l with
  | nil => intro s inv; exact inv
  | cons e t ih => intro s inv; exact ih (ninv_step cfg e inv)

theorem ninv_title {s : PState} (inv : NInv s) (h su sp : String) :
    NInv (add_custom_title_slide s h su sp) := by
  unfold add_custom_title_slide
  split
  · split
    next hg =>
      obtain ⟨hnotseen, hne⟩ := hg
      have hkey : (s.slides.length + 1, pyStrip sp) ∉ s.notesTxt := by
        intro hmem
        exact hnotseen (inv.sub _ hmem)
      refine ⟨?_, ?_, ?_, ?_, ?_, ?_⟩
      · rw [List.nodup_append]
        refine ⟨inv.nodup, List.nodup_singleton _, ?_⟩
        intro x hx hx2
        rw [List.mem_singleton] at hx2
        subst hx2
        exact hkey hx
      · intro k hk
        rcases List.mem_append.mp hk with hh | hh
        · exact List.mem_cons_of_mem _ (inv.sub k hh)
        · rw [List.mem_singleton] at hh
          subst hh
          exact List.mem_cons_self _ _
      · intro k hk
        rcases List.mem_append.mp hk with hh | hh
        · exact inv.trimmed k hh
        · rw [List.mem_singleton] at hh
          subst hh
          exact ⟨pyStrip_idem sp, hne⟩
      · rw [List.pairwise_append]
        refine ⟨inv.sorted, List.pairwise_singleton _ _, ?_⟩
        intro a ha b hb
        rw [List.mem_singleton] at hb
        subst hb
        show a.1 ≤ s.slides.length + 1
        rw [← inv.counts]
        exact Nat.le_trans (inv.bound a ha) (Nat.le_succ _)
      · intro k hk
        rcases List.mem_append.mp hk with hh | hh
        · exact Nat.le_trans (inv.bound k hh) (Nat.le_succ _)
        · rw [List.mem_singleton] at hh
          subst hh
          show s.slides.length + 1 ≤ s.slideCount + 1
          rw [inv.counts]
      · show s.slideCount + 1 = (s.slides ++ [_]).length
        simp [inv.counts]
    next _ =>
      refine ninv_steady inv rfl rfl (Nat.le_succ _) ?_
      show s.slideCount + 1 = (s.slides ++ [_]).length
      simp [inv.counts]
  · refine ninv_steady inv rfl rfl (Nat.le_succ _) ?_
    show s.slideCount + 1 = (s.slides ++ [_]).length
    simp [inv.counts]

theorem ninv_fallback {s : PState} (inv : NInv s) : NInv (add_fallback_slide s) := by
  refine ninv_steady inv rfl rfl (Nat.le_succ _) ?_
  simp [add_fallback_slide, inv.counts]

theorem ninv_init : NInv initState := by
  refine ⟨List.nodup_nil, ?_, ?_, List.Pairwise.nil, ?_, rfl⟩
  · intro k hk; exact absurd hk (List.not_mem_nil k)
  · intro k hk; exact absurd hk (List.not_mem_nil k)
  · intro k hk; exact absurd hk (List.not_mem_nil k)

/-- The notes invariant holds for every completed conversion. -/
theorem ninv_convert (cfg : Nat) (ns : List Node) :
    NInv (create_enhanced_presentation cfg ns) := by
  have key : ∀ s2 : PState, NInv s2 →
      NInv (if s2.slides.length = 0 then add_fallback_slide s2 else s2) := by
    intro s2 inv2
    split
    · exact ninv_fallback inv2
    · exact inv2
  unfold create_enhanced_presentation process_content_elements
  exact key _ (ninv_fold cfg _ (ninv_title ninv_init _ _ _))

/-- On a duplicate-free list of trimmed non-empty notes none of which was
    seen, the sidecar cleaning loop is the identity. -/
theorem cleaned_id : ∀ (l : List (Nat × String)) (seen : List (Nat × String)),
    l.Nodup → (∀ k ∈ l, pyStrip k.2 = k.2 ∧ k.2 ≠ "") → (∀ k ∈ l, k ∉ seen) →
    cleanedNotes seen l = l := by
  intro l
  induction l with
  | nil => intro seen _ _ _; rfl
  | cons a t ih =>
    intro seen hnd htr hns
    obtain ⟨n, note⟩ := a
    obtain ⟨ht1, ht2⟩ := htr (n, note) (List.mem_cons_self _ t)
    have hstrip : pyStrip note = note := ht1
    show (if pyStrip note ≠ "" ∧ (n, pyStrip note) ∉ seen then
        (n, pyStrip note) :: cleanedNotes ((n, pyStrip note) :: seen) t
      else cleanedNotes seen t) = _
    rw [hstrip]
    rw [if_pos ⟨ht2, hns (n, note) (List.mem_cons_self _ t)⟩]
    have hna : (n, note) ∉ t := (List.nodup_cons.mp hnd).1
    rw [ih ((n, note) :: seen) (List.nodup_cons.mp hnd).2
      (fun k hk => htr k (List.mem_cons_of_mem _ hk))
      (fun k hk => by
        intro hmem
        rcases List.mem_cons.mp hmem with hh | hh
        · subst hh; exact hna hk
        · exact hns k (List.mem_cons_of_mem _ hk) hh)]

/-- C7: across the whole conversion — title extraction and main-pass
    interception — the accumulated notes list never contains two entries with
    the same (1-based slide index, trimmed text) key: every insertion is
    guarded by the `notes_seen` set, so the final list is duplicate-free for
    every input. -/
theorem c7_theorem (cfg : Nat) (ns : List Node) :
    (create_enhanced_presentation cfg ns).notesTxt.Nodup :=
  (ninv_convert cfg ns).nodup

/-- C8 (amended): the sidecar text is one `Slide <N>:\n<text>\n\n` block per
    ACCUMULATED NOTE ENTRY, in accumulation order — a slide with several
    distinct notes contributes several blocks; the order is nondecreasing in
    slide index, the texts are already trimmed and non-empty, and the
    cleaning loop's dedup/empty-skip never fires on a conversion's output. -/
theorem c8_theorem (cfg : Nat) (ns : List Node) :
    save_speaker_notes_textfile (create_enhanced_presentation cfg ns).notesTxt
      = String.join ((create_enhanced_presentation cfg ns).notesTxt.map
          (fun p => "Slide " ++ toString p.1 ++ ":\n" ++ p.2 ++ "\n\n"))
    ∧ ((create_enhanced_presentation cfg ns).notesTxt.map Prod.fst).Pairwise
        (fun a b => a ≤ b) := by
  have inv := ninv_convert cfg ns
  constructor
  · unfold save_speaker_notes_textfile
    rw [cleaned_id _ [] inv.nodup inv.trimmed (fun k _ => List.not_mem_nil k)]
    refine congrArg String.join (List.map_congr_left ?_)
    intro p hp
    rw [(inv.trimmed p hp).1]
  · rw [List.pairwise_map]
    exact inv.sorted

end Canvas
